import Mathlib

/-!
Verification of the chouseichan schedule-coordination core.

The development embeds, in Lean, the data model and the operations of the
repository that the claims concern:

* domain-level store operations (schedule lookup, response upsert, summary
  aggregation, closing, reminder updates) — from
  `D1ScheduleRepository` (infrastructure/repositories/d1/schedule-repository),
  `VoteController` (presentation/controllers/VoteController) and, where the
  implementation file is not part of the provided sources, modelled from the
  specification (each such definition is marked `Modelled from the spec:`);
* a row-level model of the D1 batch write used by `D1ScheduleRepository.save`,
  whose atomicity is the documented contract of D1 batches
  (docs/D1_ANALYSIS.md: transactions are ACID).
-/

namespace Chouseichan

/-- Vote status for one user and one candidate date: `'ok' | 'maybe' | 'ng'`
(domain/types/DomainTypes). -/
inductive Status where
  | ok
  | maybe
  | ng
deriving DecidableEq, Repr

/-- Schedule lifecycle status: the source stores the strings
`'open' | 'closed'`; `opened` stands for `'open'`. -/
inductive ScheduleStatus where
  | opened
  | closed
deriving DecidableEq, Repr

/-- A candidate date of a schedule (`DomainScheduleDate`): `id` and an opaque
`datetime` string; display order is the position in the schedule's list. -/
structure ScheduleDate where
  id : String
  datetime : String
deriving DecidableEq, Repr

/-- The fields of `DomainSchedule` that the claims depend on. -/
structure Schedule where
  id : String
  guildId : String
  channelId : String
  title : String
  dates : List ScheduleDate
  createdById : String
  deadline : Option Nat
  reminderTimings : List String
  remindersSent : List String
  status : ScheduleStatus
  totalResponses : Nat
  updatedAt : Nat
deriving DecidableEq, Repr

/-- One user's response (`DomainResponse`): `dateStatuses` is an association
list from date id to status, holding only the dates the user answered. -/
structure UserResponse where
  scheduleId : String
  guildId : String
  userId : String
  username : String
  dateStatuses : List (String × Status)
deriving DecidableEq, Repr

/-- The durable state the repositories read and write: schedules and
responses, as stored in D1. -/
structure Store where
  schedules : List Schedule
  responses : List UserResponse
deriving DecidableEq, Repr

/-- `findById` of `D1ScheduleRepository`: the schedule with the given id for
the given guild (`WHERE s.id = ? AND s.guild_id = ?`), or none. -/
def findSchedule (st : Store) (scheduleId guildId : String) : Option Schedule :=
  st.schedules.find? (fun s => s.id == scheduleId && s.guildId == guildId)

/-- The responses stored for one schedule of one guild
(`WHERE schedule_id = ? AND guild_id = ?`). -/
def responsesFor (st : Store) (scheduleId guildId : String) : List UserResponse :=
  st.responses.filter (fun r => r.scheduleId == scheduleId && r.guildId == guildId)

/-- Status a stored response gives to one date id (association-list lookup in
`dateStatuses`). -/
def lookupStatus (r : UserResponse) (dateId : String) : Option Status :=
  (r.dateStatuses.find? (fun p => p.1 == dateId)).map (fun p => p.2)

/-- Whitespace characters removed by JavaScript `String.prototype.trim` (the
ones that can occur in a Discord modal text value). -/
def isTrimmedSpace (c : Char) : Bool :=
  c == ' ' || c == '\t' || c == '\n' || c == '\r'

/-- JavaScript `String.prototype.toLowerCase` on one character, for the ASCII
range (the vote parser only distinguishes `o` from the non-ASCII marks, which
lowercasing leaves unchanged). -/
def jsToLower (c : Char) : Char :=
  if 'A' ≤ c && c ≤ 'Z' then Char.ofNat (c.toNat + 32) else c

/-- JavaScript `value.trim().toLowerCase()`, as performed by
`VoteController.handleVoteModal` on each modal text value. -/
def normalizeVoteValue (value : String) : String :=
  String.mk ((((value.data.dropWhile isTrimmedSpace).reverse.dropWhile
    isTrimmedSpace).reverse).map jsToLower)

/-! ## Summary aggregation

The implementation file `response-repository.ts` is not among the provided
sources (only its unit test is), so the aggregation is modelled from the
specification, §4.2, and checked against the expectations of
`response-repository.test.ts`. -/

/-- Per-date counters, named as in the summary DTO (`yes`, `maybe`, `no`). -/
structure DateCounts where
  yes : Nat
  maybe : Nat
  no : Nat
deriving DecidableEq, Repr

/-- Modelled from the spec: `responseCounts[dateId]` counts `ok`/`maybe`/`ng`
across all stored responses that mention that date (§4.2). -/
def countStatus (rs : List UserResponse) (dateId : String) (s : Status) : Nat :=
  rs.countP (fun r => lookupStatus r dateId == some s)

/-- Modelled from the spec: the three counters for one date. -/
def dateCounts (rs : List UserResponse) (dateId : String) : DateCounts :=
  { yes := countStatus rs dateId .ok
    maybe := countStatus rs dateId .maybe
    no := countStatus rs dateId .ng }

/-- Modelled from the spec: number of distinct users with at least one stored
status for the schedule (§4.2); the store keeps one response per
(scheduleId, userId), so this counts stored responses with a nonempty
`dateStatuses`. -/
def totalResponseUsers (rs : List UserResponse) : Nat :=
  rs.countP (fun r => !r.dateStatuses.isEmpty)

/-- Strict lexicographic comparison used for the optimal date: more `yes`
votes, or equally many `yes` and more `yes + maybe` (§4.2). -/
def strictlyBetter (a b : DateCounts) : Bool :=
  b.yes < a.yes || (a.yes == b.yes && b.yes + b.maybe < a.yes + a.maybe)

/-- Fold keeping the current best candidate; a later date replaces the best
only when strictly better, so ties resolve to the earliest display order. -/
def pickBest (f : String → DateCounts) (best : ScheduleDate) :
    List ScheduleDate → ScheduleDate
  | [] => best
  | d :: ds =>
    if strictlyBetter (f d.id) (f best.id) then pickBest f d ds else pickBest f best ds

/-- Modelled from the spec: `optimalDateId` — the date with the maximum `yes`
count, ties broken by maximum `yes + maybe`, remaining ties by earliest
display order; undefined when there are no stored responses (§4.2). -/
def optimalDateId (rs : List UserResponse) (dates : List ScheduleDate) : Option String :=
  if rs.isEmpty then none
  else
    match dates with
    | [] => none
    | d :: ds => some (pickBest (dateCounts rs) d ds).id

/-- The derived summary (`Summary`, §3): never persisted, never an error. -/
structure Summary where
  schedule : Schedule
  responseCounts : String → DateCounts
  totalResponseUsers : Nat
  optimalDateId : Option String

/-- Modelled from the spec: `getScheduleSummary(scheduleId, guildId)` returns
`null` when the schedule is not found, otherwise the derived summary
(§4.2). -/
def getScheduleSummary (st : Store) (scheduleId guildId : String) : Option Summary :=
  match findSchedule st scheduleId guildId with
  | none => none
  | some s =>
    let rs := responsesFor st scheduleId guildId
    some { schedule := s
           responseCounts := dateCounts rs
           totalResponseUsers := totalResponseUsers rs
           optimalDateId := optimalDateId rs s.dates }

/-! ## ResponseStore operations

`response-repository.ts` and `SubmitResponseUseCase` are not among the
provided sources (only `response-repository.test.ts` and callers are), so the
two upsert shapes are modelled from the specification, §4.1. -/

/-- Repository-level error (`RepositoryError` in
infrastructure/repositories/errors). -/
inductive RepoError where
  | notFound
  | saveError
deriving DecidableEq, Repr

/-- Row key of the `responses` table: unique on (schedule_id, user_id) within
a guild. -/
def responseKey (scheduleId guildId userId : String) (r : UserResponse) : Bool :=
  r.scheduleId == scheduleId && r.guildId == guildId && r.userId == userId

/-- `findByUser`: the stored response of one user for one schedule. -/
def findResponse (st : Store) (scheduleId guildId userId : String) : Option UserResponse :=
  st.responses.find? (responseKey scheduleId guildId userId)

/-- Modelled from the spec: the **full submission** shape of `upsert` — every
date carries an explicit status and the stored `dateStatuses` is replaced
wholesale; fails with NotFound when the schedule does not exist for the guild
(§4.1, and `response-repository.test.ts` "should throw error when schedule
not found"). -/
def upsertFull (st : Store) (scheduleId guildId userId username : String)
    (statuses : List (String × Status)) : Except RepoError Store :=
  match findSchedule st scheduleId guildId with
  | none => .error .notFound
  | some _ =>
    if st.responses.any (responseKey scheduleId guildId userId) then
      .ok { st with responses := st.responses.map (fun r =>
              if responseKey scheduleId guildId userId r then
                { r with username := username, dateStatuses := statuses }
              else r) }
    else
      .ok { st with responses :=
              st.responses ++ [⟨scheduleId, guildId, userId, username, statuses⟩] }

/-- Association-list update of one date's status: overwrite the entry if the
date is already answered, append it otherwise. -/
def setStatus (l : List (String × Status)) (dateId : String) (s : Status) :
    List (String × Status) :=
  if l.any (fun p => p.1 == dateId) then
    l.map (fun p => if p.1 == dateId then (p.1, s) else p)
  else l ++ [(dateId, s)]

/-- Modelled from the spec: the **partial submission** shape of `upsert` — a
single date's status overwrites only the targeted date and preserves every
other previously stored status (§4.1). -/
def upsertSingle (st : Store) (scheduleId guildId userId username dateId : String)
    (s : Status) : Except RepoError Store :=
  match findSchedule st scheduleId guildId with
  | none => .error .notFound
  | some _ =>
    match findResponse st scheduleId guildId userId with
    | some _ =>
      .ok { st with responses := st.responses.map (fun r =>
              if responseKey scheduleId guildId userId r then
                { r with username := username, dateStatuses := setStatus r.dateStatuses dateId s }
              else r) }
    | none =>
      .ok { st with responses :=
              st.responses ++ [⟨scheduleId, guildId, userId, username, [(dateId, s)]⟩] }

/-! ## Schedule operations -/

/-- `D1ScheduleRepository.updateReminders`: one UPDATE that sets
`reminders_sent` to exactly the supplied list (and `updated_at` to now) on
the row matching `id` and `guild_id`. -/
def updateReminders (st : Store) (scheduleId guildId : String)
    (remindersSent : List String) (now : Nat) : Store :=
  { st with schedules := st.schedules.map (fun s =>
      if s.id == scheduleId && s.guildId == guildId then
        { s with remindersSent := remindersSent, updatedAt := now }
      else s) }

/-- Structured failure of `CloseScheduleUseCase.execute` (the use case returns
`{ success: false, errors: [...] }`, never throws). -/
inductive CloseError where
  | notFound
  | permissionDenied
  | alreadyClosed
deriving DecidableEq, Repr

/-- Modelled from the spec: `CloseScheduleUseCase.execute` — not found,
permission and already-closed checks, each a structured error without a store
write; otherwise the schedule is saved with status `closed`
(§7 ConflictError, and `CloseScheduleUseCase.test.ts`). -/
def closeScheduleExecute (st : Store) (scheduleId guildId editorUserId : String)
    (now : Nat) : Except CloseError Store :=
  match findSchedule st scheduleId guildId with
  | none => .error .notFound
  | some s =>
    if s.createdById != editorUserId then .error .permissionDenied
    else if s.status == .closed then .error .alreadyClosed
    else
      .ok { st with schedules := st.schedules.map (fun t =>
              if t.id == scheduleId && t.guildId == guildId then
                { t with status := .closed, updatedAt := now }
              else t) }

/-! ## VoteController (presentation layer, from the source) -/

/-- `VoteController.handleVoteModal` value parsing: `o`/`○`/`◯` (after
trim + lowercase) is `ok`, `△`/`▲` is `maybe`, and every other value —
including malformed text — is `ng`. -/
def parseVoteValue (value : String) : Status :=
  let t := normalizeVoteValue value
  if t == "o" || t == "○" || t == "◯" then .ok
  else if t == "△" || t == "▲" then .maybe
  else .ng

/-- `handleVoteModal`'s response-building loop: the i-th modal component is
bound to the i-th candidate date (`for i < dates.length && i < components.length`);
components beyond the schedule's dates are ignored, and date ids never come
from the payload. -/
def parseModalResponses (dates : List ScheduleDate) (components : List String) :
    List (String × Status) :=
  match dates, components with
  | d :: ds, v :: vs => (d.id, parseVoteValue v) :: parseModalResponses ds vs
  | _, _ => []

/-- Outcome of `handleVoteModal` (the controller maps each branch to a
Discord response; `accepted` carries the store after the submit). -/
inductive VoteModalResult where
  | scheduleNotFound
  | closedRejected
  | saveFailed
  | accepted (st : Store)
deriving DecidableEq, Repr

/-- `VoteController.handleVoteModal`: look up the schedule; reject when it is
closed and the requester is not its creator; otherwise parse the modal values
and submit them as a full response. -/
def handleVoteModal (st : Store) (scheduleId guildId userId username : String)
    (components : List String) : VoteModalResult :=
  match findSchedule st scheduleId guildId with
  | none => .scheduleNotFound
  | some schedule =>
    if schedule.status == .closed && schedule.createdById != userId then .closedRejected
    else
      match upsertFull st scheduleId guildId userId username
          (parseModalResponses schedule.dates components) with
      | .error _ => .saveFailed
      | .ok st2 => .accepted st2

/-- Outcome of `VoteController.handleCloseButton`. -/
inductive CloseButtonResult where
  | scheduleNotFound
  | permissionDenied
  | alreadyClosedError
  | closeFailed
  | closedOk (st : Store)
deriving DecidableEq, Repr

/-- `VoteController.handleCloseButton`: permission check, already-closed
check (an error response, no use-case call), then `CloseScheduleUseCase`. -/
def handleCloseButton (st : Store) (scheduleId guildId userId : String)
    (now : Nat) : CloseButtonResult :=
  match findSchedule st scheduleId guildId with
  | none => .scheduleNotFound
  | some schedule =>
    if schedule.createdById != userId then .permissionDenied
    else if schedule.status == .closed then .alreadyClosedError
    else
      match closeScheduleExecute st scheduleId guildId userId now with
      | .error _ => .closeFailed
      | .ok st2 => .closedOk st2

/-- The payload of one user's vote submission (`SubmitResponseUseCase`
request: userId, username and the per-date responses). -/
structure Vote where
  userId : String
  username : String
  statuses : List (String × Status)
deriving DecidableEq, Repr

/-- Modelled from the spec: a sequence of full submissions, each one executed
by `SubmitResponseUseCase`; a failed submission leaves the store unchanged.
The list order is one serialization of the concurrent submissions (§5: the
order between concurrent operations is undefined). -/
def submitVotes (st : Store) (scheduleId guildId : String) : List Vote → Store
  | [] => st
  | v :: vs =>
    match upsertFull st scheduleId guildId v.userId v.username v.statuses with
    | .error _ => submitVotes st scheduleId guildId vs
    | .ok st2 => submitVotes st2 scheduleId guildId vs

/-- The store carried by an accepted `handleVoteModal` outcome, if any. -/
def voteResultStore : VoteModalResult → Option Store
  | .accepted st => some st
  | _ => none

/-- The store carried by a successful `handleCloseButton` outcome, if any. -/
def closeButtonStore : CloseButtonResult → Option Store
  | .closedOk st => some st
  | _ => none

/-! ## Concrete fixtures (used by witnesses and counterexamples) -/

/-- Two candidate dates, as in the unit-test fixtures. -/
def wDates : List ScheduleDate :=
  [⟨"date1", "2024-12-25 19:00"⟩, ⟨"date2", "2024-12-26 19:00"⟩]

/-- An open schedule with two dates created by `creator1`. -/
def wSchedule : Schedule :=
  ⟨"s1", "g1", "ch1", "Test Schedule", wDates, "creator1", none, [], [], .opened, 0, 0⟩

/-- A store holding just the open schedule. -/
def wStore : Store := ⟨[wSchedule], []⟩

/-- The same store with the schedule already closed. -/
def wClosedStore : Store := ⟨[{ wSchedule with status := .closed }], []⟩

/-- The same store with the reminder timing `1440` already recorded as
sent. -/
def wReminderStore : Store := ⟨[{ wSchedule with remindersSent := ["1440"] }], []⟩

/-- Scenario A of §8: four users voting (ok, maybe), (maybe, ok), (ng, ok),
(ok, ng) over the two dates. -/
def scenarioVotes : List Vote :=
  [⟨"user1", "U1", [("date1", .ok), ("date2", .maybe)]⟩,
   ⟨"user2", "U2", [("date1", .maybe), ("date2", .ok)]⟩,
   ⟨"user3", "U3", [("date1", .ng), ("date2", .ok)]⟩,
   ⟨"user4", "U4", [("date1", .ok), ("date2", .ng)]⟩]

/-- The store after Scenario A's four submissions. -/
def scenarioStore : Store := submitVotes wStore ("s1") ("g1") scenarioVotes

/-! ## Row-level model of the persisted schema and the D1 batch

Tables as in §6: `schedules`, `schedule_dates`, `responses`,
`response_statuses`. `D1ScheduleRepository.save` submits all its statements
in one `db.batch`; a D1 batch is a transaction (docs/D1_ANALYSIS.md:
transactions are ACID), so either every statement applies or none does. -/

/-- Row of the `schedules` table (the columns the claims depend on). -/
structure ScheduleRow where
  id : String
  guildId : String
  channelId : String
  title : String
  status : ScheduleStatus
  remindersSent : List String
  totalResponses : Nat
  updatedAt : Nat
deriving DecidableEq, Repr

/-- Row of the `schedule_dates` table; `rowId` is the `id` column, built as
`scheduleId_dateId` by `D1ScheduleRepository.save`. -/
structure DateRow where
  rowId : String
  scheduleId : String
  dateId : String
  datetime : String
  displayOrder : Nat
deriving DecidableEq, Repr

/-- Row of the `responses` table, unique on (schedule_id, user_id). -/
structure ResponseRow where
  scheduleId : String
  guildId : String
  userId : String
  username : String
  updatedAt : Nat
deriving DecidableEq, Repr

/-- Row of the `response_statuses` table; the owning response row is keyed by
(schedule_id, user_id). -/
structure StatusRow where
  scheduleId : String
  userId : String
  dateId : String
  status : Status
deriving DecidableEq, Repr

/-- The relational state of the four tables. -/
structure DBState where
  schedules : List ScheduleRow
  scheduleDates : List DateRow
  responses : List ResponseRow
  responseStatuses : List StatusRow
deriving DecidableEq, Repr

/-- The SQL statements issued by the save paths. -/
inductive Stmt where
  | deleteScheduleDates (scheduleId : String)
  | upsertScheduleRow (row : ScheduleRow)
  | insertScheduleDate (row : DateRow)
  | upsertResponseRow (row : ResponseRow)
  | deleteResponseStatuses (scheduleId userId : String)
  | insertResponseStatus (row : StatusRow)
deriving DecidableEq, Repr

/-- Effect of one statement on the relational state. -/
def applyStmt (db : DBState) : Stmt → DBState
  | .deleteScheduleDates scheduleId =>
    { db with scheduleDates := db.scheduleDates.filter (fun d => d.scheduleId != scheduleId) }
  | .upsertScheduleRow row =>
    if db.schedules.any (fun s => s.id == row.id) then
      { db with schedules := db.schedules.map (fun s => if s.id == row.id then row else s) }
    else
      { db with schedules := db.schedules ++ [row] }
  | .insertScheduleDate row =>
    { db with scheduleDates := db.scheduleDates ++ [row] }
  | .upsertResponseRow row =>
    if db.responses.any (fun r => r.scheduleId == row.scheduleId && r.userId == row.userId) then
      { db with responses := db.responses.map (fun r =>
          if r.scheduleId == row.scheduleId && r.userId == row.userId then row else r) }
    else
      { db with responses := db.responses ++ [row] }
  | .deleteResponseStatuses scheduleId userId =>
    { db with responseStatuses := db.responseStatuses.filter (fun s =>
        !(s.scheduleId == scheduleId && s.userId == userId)) }
  | .insertResponseStatus row =>
    { db with responseStatuses := db.responseStatuses ++ [row] }

/-- Result of submitting a batch: the state afterwards plus the success
flag. -/
structure BatchOutcome where
  db : DBState
  ok : Bool
deriving DecidableEq, Repr

/-- D1 `db.batch`: atomic (docs/D1_ANALYSIS.md). When the transaction commits
every statement applies in order; when it fails nothing applies and the
repository surfaces a `RepositoryError`. -/
def batchExec (db : DBState) (stmts : List Stmt) (commit : Bool) : BatchOutcome :=
  if commit then ⟨stmts.foldl applyStmt db, true⟩ else ⟨db, false⟩

/-- The `schedule_dates` INSERT statements of `D1ScheduleRepository.save`:
one per date, `display_order` = position in the list
(`schedule.dates.map((date, index) => ...)`). -/
def dateInsertStmts (scheduleId : String) (i : Nat) : List ScheduleDate → List Stmt
  | [] => []
  | d :: ds =>
    .insertScheduleDate ⟨scheduleId ++ "_" ++ d.id, scheduleId, d.id, d.datetime, i⟩ ::
      dateInsertStmts scheduleId (i + 1) ds

/-- The `schedule_dates` rows those statements create. -/
def dateRowsOf (scheduleId : String) (i : Nat) : List ScheduleDate → List DateRow
  | [] => []
  | d :: ds =>
    ⟨scheduleId ++ "_" ++ d.id, scheduleId, d.id, d.datetime, i⟩ :: dateRowsOf scheduleId (i + 1) ds

/-- The schedules-table row `D1ScheduleRepository.save` writes for a domain
schedule. -/
def scheduleRowOf (s : Schedule) : ScheduleRow :=
  ⟨s.id, s.guildId, s.channelId, s.title, s.status, s.remindersSent, s.totalResponses, s.updatedAt⟩

/-- The statement list of `D1ScheduleRepository.save`: delete the schedule's
old date rows, upsert the schedule row, insert the new date rows — all inside
one `db.batch`. -/
def scheduleSaveStmts (s : Schedule) : List Stmt :=
  .deleteScheduleDates s.id :: .upsertScheduleRow (scheduleRowOf s) :: dateInsertStmts s.id 0 s.dates

/-- `D1ScheduleRepository.save`: submit the statement list as one batch. -/
def scheduleSave (db : DBState) (s : Schedule) (commit : Bool) : BatchOutcome :=
  batchExec db (scheduleSaveStmts s) commit

/-- The `response_statuses` INSERT statements for a submission. -/
def statusInsertStmts (scheduleId userId : String) : List (String × Status) → List Stmt
  | [] => []
  | p :: ps => .insertResponseStatus ⟨scheduleId, userId, p.1, p.2⟩ ::
      statusInsertStmts scheduleId userId ps

/-- The `response_statuses` rows those statements create. -/
def statusRowsOf (scheduleId userId : String) : List (String × Status) → List StatusRow
  | [] => []
  | p :: ps => ⟨scheduleId, userId, p.1, p.2⟩ :: statusRowsOf scheduleId userId ps

/-- Modelled from the spec: the statement list of `D1ResponseRepository.save`
(the implementation file is not among the provided sources) — upsert the
response row, delete the user's old status rows, insert the new ones, the
whole write being one atomic unit (§4.1). -/
def responseSaveStmts (row : ResponseRow) (statuses : List (String × Status)) : List Stmt :=
  .upsertResponseRow row :: .deleteResponseStatuses row.scheduleId row.userId ::
    statusInsertStmts row.scheduleId row.userId statuses

/-- Modelled from the spec: `D1ResponseRepository.save` submits its statement
list as one atomic batch. -/
def responseSave (db : DBState) (row : ResponseRow) (statuses : List (String × Status))
    (commit : Bool) : BatchOutcome :=
  batchExec db (responseSaveStmts row statuses) commit

/-- The stored date rows of one schedule. -/
def dateRowsFor (db : DBState) (scheduleId : String) : List DateRow :=
  db.scheduleDates.filter (fun d => d.scheduleId == scheduleId)

/-- The stored status rows of one user's response. -/
def statusRowsFor (db : DBState) (scheduleId userId : String) : List StatusRow :=
  db.responseStatuses.filter (fun s => s.scheduleId == scheduleId && s.userId == userId)

/-- An empty relational state. -/
def wDB : DBState := ⟨[], [], [], []⟩

/-! ## General lemmas -/

theorem strictlyBetter_iff (a b : DateCounts) :
    strictlyBetter a b = true ↔
      b.yes < a.yes ∨ (a.yes = b.yes ∧ b.yes + b.maybe < a.yes + a.maybe) := by
  simp [strictlyBetter]

theorem strictlyBetter_irrefl (a : DateCounts) : strictlyBetter a a = false := by
  simp [strictlyBetter]

theorem strictlyBetter_down (a b c : DateCounts) (h1 : strictlyBetter a b = true)
    (h2 : strictlyBetter a c = false) : strictlyBetter c b = true := by
  simp only [strictlyBetter_iff] at h1 ⊢
  rw [Bool.eq_false_iff, ne_eq, strictlyBetter_iff] at h2
  omega

theorem strictlyBetter_not_up (a b c : DateCounts) (h1 : strictlyBetter a b = true)
    (h2 : strictlyBetter a c = false) : strictlyBetter b c = false := by
  rw [Bool.eq_false_iff, ne_eq, strictlyBetter_iff] at h2 ⊢
  rw [strictlyBetter_iff] at h1
  omega

theorem strictlyBetter_over (a b c : DateCounts) (h1 : strictlyBetter a b = true)
    (h2 : strictlyBetter c b = false) : strictlyBetter a c = true := by
  rw [strictlyBetter_iff] at h1 ⊢
  rw [Bool.eq_false_iff, ne_eq, strictlyBetter_iff] at h2
  omega

theorem strictlyBetter_not_across (a b c : DateCounts) (h1 : strictlyBetter a b = false)
    (h2 : strictlyBetter c b = true) : strictlyBetter a c = false := by
  rw [Bool.eq_false_iff, ne_eq, strictlyBetter_iff] at h1 ⊢
  rw [strictlyBetter_iff] at h2
  omega

theorem find?_map_key {α : Type} (p : α → Bool) (g : α → α)
    (h : ∀ a, p (g a) = p a) (l : List α) : (l.map g).find? p = (l.find? p).map g := by
  induction l with
  | nil => rfl
  | cons a l ih =>
    simp only [List.map_cons, List.find?]
    rw [h a]
    cases hk : p a <;> simp [ih]

/-- `pickBest` returns a member of `best :: ds` that no member beats and that
strictly beats every member placed before it. -/
theorem pickBest_spec (f : String → DateCounts) (best : ScheduleDate)
    (ds : List ScheduleDate) :
    ∃ pre post, best :: ds = pre ++ pickBest f best ds :: post ∧
      (∀ d ∈ pre, strictlyBetter (f (pickBest f best ds).id) (f d.id) = true) ∧
      (∀ d ∈ best :: ds, strictlyBetter (f d.id) (f (pickBest f best ds).id) = false) := by
  induction ds generalizing best with
  | nil =>
    refine ⟨[], [], rfl, by simp, ?_⟩
    intro d hd
    simp only [List.mem_singleton] at hd
    subst hd
    exact strictlyBetter_irrefl _
  | cons d ds ih =>
    by_cases hb : strictlyBetter (f d.id) (f best.id) = true
    · have hpick : pickBest f best (d :: ds) = pickBest f d ds := by
        simp [pickBest, hb]
      obtain ⟨pre, post, hsplit, hpre, hmax⟩ := ih d
      have hr : strictlyBetter (f d.id) (f (pickBest f d ds).id) = false :=
        hmax d (by simp)
      refine ⟨best :: pre, post, ?_, ?_, ?_⟩
      · rw [hpick, List.cons_append, ← hsplit]
      · intro x hx
        rw [hpick]
        rcases List.mem_cons.mp hx with hx | hx
        · subst hx
          exact strictlyBetter_down _ _ _ hb hr
        · exact hpre x hx
      · intro x hx
        rw [hpick]
        rcases List.mem_cons.mp hx with hx | hx
        · subst hx
          exact strictlyBetter_not_up _ _ _ hb hr
        · exact hmax x hx
    · have hb' : strictlyBetter (f d.id) (f best.id) = false := by
        revert hb
        cases strictlyBetter (f d.id) (f best.id) <;> simp
      have hpick : pickBest f best (d :: ds) = pickBest f best ds := by
        simp [pickBest, hb']
      obtain ⟨pre, post, hsplit, hpre, hmax⟩ := ih best
      cases pre with
      | nil =>
        simp only [List.nil_append] at hsplit
        have heq : best = pickBest f best ds := by injection hsplit
        have hpick2 : pickBest f best (d :: ds) = best := by rw [hpick, ← heq]
        refine ⟨[], d :: ds, ?_, ?_, ?_⟩
        · rw [hpick2]
          rfl
        · intro x hx
          simp at hx
        · intro x hx
          rw [hpick2]
          rcases List.mem_cons.mp hx with hx | hx
          · rw [hx]
            exact strictlyBetter_irrefl _
          · rcases List.mem_cons.mp hx with hx | hx
            · rw [hx]
              exact hb'
            · have := hmax x (List.mem_cons_of_mem _ hx)
              rwa [← heq] at this
      | cons q pre₂ =>
        rw [List.cons_append] at hsplit
        have hq1 : best = q := by injection hsplit
        have hq2 : ds = pre₂ ++ pickBest f best ds :: post := by injection hsplit
        have hbestpre : strictlyBetter (f (pickBest f best ds).id) (f best.id) = true := by
          have := hpre q (by simp)
          rwa [← hq1] at this
        refine ⟨best :: d :: pre₂, post, ?_, ?_, ?_⟩
        · rw [hpick]
          simp only [List.cons_append]
          rw [← hq2]
        · rw [hpick]
          intro x hx
          rcases List.mem_cons.mp hx with hx | hx
          · rw [hx]
            exact hbestpre
          · rcases List.mem_cons.mp hx with hx | hx
            · rw [hx]
              exact strictlyBetter_over _ _ _ hbestpre hb'
            · exact hpre x (List.mem_cons_of_mem _ hx)
        · rw [hpick]
          intro x hx
          rcases List.mem_cons.mp hx with hx | hx
          · rw [hx]
            exact hmax best (by simp)
          · rcases List.mem_cons.mp hx with hx | hx
            · rw [hx]
              exact strictlyBetter_not_across _ _ _ hb' hbestpre
            · exact hmax x (List.mem_cons_of_mem _ hx)
/-! ## Claim C1 -/

/-- C1: for every schedule with at least one stored response,
`getScheduleSummary` selects as `optimalDateId` the date with the maximum
`yes` count; among dates tied on `yes`, the one with the maximum
`yes + maybe`; among dates still tied, the earliest display order (the chosen
date beats every date placed before it). For a schedule with zero responses
the summary still succeeds, `optimalDateId` is undefined and every per-date
count is zero. -/
theorem c1_optimal_date_selection (st : Store) (scheduleId guildId : String)
    (s : Schedule) (hs : findSchedule st scheduleId guildId = some s) :
    (responsesFor st scheduleId guildId ≠ [] → s.dates ≠ [] →
      ∃ sum d pre post, getScheduleSummary st scheduleId guildId = some sum ∧
        s.dates = pre ++ d :: post ∧
        sum.optimalDateId = some d.id ∧
        (∀ d' ∈ s.dates,
          (sum.responseCounts d'.id).yes ≤ (sum.responseCounts d.id).yes) ∧
        (∀ d' ∈ s.dates, (sum.responseCounts d'.id).yes = (sum.responseCounts d.id).yes →
          (sum.responseCounts d'.id).yes + (sum.responseCounts d'.id).maybe ≤
            (sum.responseCounts d.id).yes + (sum.responseCounts d.id).maybe) ∧
        (∀ d' ∈ pre,
          (sum.responseCounts d'.id).yes < (sum.responseCounts d.id).yes ∨
            ((sum.responseCounts d'.id).yes = (sum.responseCounts d.id).yes ∧
              (sum.responseCounts d'.id).yes + (sum.responseCounts d'.id).maybe <
                (sum.responseCounts d.id).yes + (sum.responseCounts d.id).maybe))) ∧
    (responsesFor st scheduleId guildId = [] →
      ∃ sum, getScheduleSummary st scheduleId guildId = some sum ∧
        sum.optimalDateId = none ∧
        ∀ dateId, sum.responseCounts dateId = ⟨0, 0, 0⟩) := by
  constructor
  · intro hrs hdates
    cases hdts : s.dates with
    | nil => exact absurd hdts hdates
    | cons d0 ds =>
      obtain ⟨pre, post, hsplit, hpre, hmax⟩ :=
        pickBest_spec (dateCounts (responsesFor st scheduleId guildId)) d0 ds
      have hempty : (responsesFor st scheduleId guildId).isEmpty = false := by
        cases hrseq : responsesFor st scheduleId guildId with
        | nil => exact absurd hrseq hrs
        | cons a l => rfl
      refine ⟨⟨s, dateCounts (responsesFor st scheduleId guildId),
          totalResponseUsers (responsesFor st scheduleId guildId),
          optimalDateId (responsesFor st scheduleId guildId) s.dates⟩,
        pickBest (dateCounts (responsesFor st scheduleId guildId)) d0 ds,
        pre, post, ?_, ?_, ?_, ?_, ?_, ?_⟩
      · simp only [getScheduleSummary, hs]
      · exact hsplit
      · show optimalDateId (responsesFor st scheduleId guildId) s.dates = _
        rw [hdts]
        simp [optimalDateId, hempty]
      · intro d' hd'
        have := hmax d' hd'
        rw [Bool.eq_false_iff, ne_eq, strictlyBetter_iff] at this
        dsimp only
        omega
      · intro d' hd'
        have := hmax d' hd'
        rw [Bool.eq_false_iff, ne_eq, strictlyBetter_iff] at this
        dsimp only
        omega
      · intro d' hd'
        have := hpre d' hd'
        rw [strictlyBetter_iff] at this
        dsimp only
        omega
  · intro hrs
    refine ⟨⟨s, dateCounts (responsesFor st scheduleId guildId),
        totalResponseUsers (responsesFor st scheduleId guildId),
        optimalDateId (responsesFor st scheduleId guildId) s.dates⟩, ?_, ?_, ?_⟩
    · simp only [getScheduleSummary, hs]
    · show optimalDateId (responsesFor st scheduleId guildId) s.dates = none
      rw [hrs]
      simp [optimalDateId]
    · intro dateId
      show dateCounts (responsesFor st scheduleId guildId) dateId = ⟨0, 0, 0⟩
      rw [hrs]
      rfl

/-- C1 witness: Scenario A's store exercises the selection branch (both dates
tie on `yes` and on `yes + maybe`, so the earliest date wins) and the fresh
store exercises the zero-response branch. -/
theorem c1_optimal_date_selection_witness :
    (∃ sum d pre post, getScheduleSummary scenarioStore ("s1") ("g1") = some sum ∧
      wSchedule.dates = pre ++ d :: post ∧
      sum.optimalDateId = some d.id ∧
      (∀ d' ∈ wSchedule.dates,
        (sum.responseCounts d'.id).yes ≤ (sum.responseCounts d.id).yes) ∧
      (∀ d' ∈ wSchedule.dates, (sum.responseCounts d'.id).yes = (sum.responseCounts d.id).yes →
        (sum.responseCounts d'.id).yes + (sum.responseCounts d'.id).maybe ≤
          (sum.responseCounts d.id).yes + (sum.responseCounts d.id).maybe) ∧
      (∀ d' ∈ pre,
        (sum.responseCounts d'.id).yes < (sum.responseCounts d.id).yes ∨
          ((sum.responseCounts d'.id).yes = (sum.responseCounts d.id).yes ∧
            (sum.responseCounts d'.id).yes + (sum.responseCounts d'.id).maybe <
              (sum.responseCounts d.id).yes + (sum.responseCounts d.id).maybe))) ∧
    (∃ sum, getScheduleSummary wStore ("s1") ("g1") = some sum ∧
      sum.optimalDateId = none ∧
      ∀ dateId, sum.responseCounts dateId = ⟨0, 0, 0⟩) :=
  ⟨(c1_optimal_date_selection scenarioStore ("s1") ("g1") wSchedule (by decide)).1
      (by decide) (by decide),
   (c1_optimal_date_selection wStore ("s1") ("g1") wSchedule rfl).2 rfl⟩

/-! ## Claim C9 -/

/-- C9: `getScheduleSummary(scheduleId, guildId)` returns null — not an
error — whenever no schedule with that id exists for that guild. -/
theorem c9_summary_null_when_schedule_missing (st : Store) (scheduleId guildId : String)
    (h : findSchedule st scheduleId guildId = none) :
    getScheduleSummary st scheduleId guildId = none := by
  simp only [getScheduleSummary, h]

/-- C9 witness: the summary of an id that is not in the store is null, and so
is the summary of an existing id queried with the wrong guild. -/
theorem c9_summary_null_when_schedule_missing_witness :
    getScheduleSummary wStore ("nope") ("g1") = none ∧
    getScheduleSummary wStore ("s1") ("other-guild") = none :=
  ⟨c9_summary_null_when_schedule_missing wStore ("nope") ("g1") rfl,
   c9_summary_null_when_schedule_missing wStore ("s1") ("other-guild") rfl⟩
/-! ## Upsert lemmas -/

theorem responseKey_fields (scheduleId guildId userId : String) (r : UserResponse)
    (h : responseKey scheduleId guildId userId r = true) :
    r.scheduleId = scheduleId ∧ r.guildId = guildId ∧ r.userId = userId := by
  simp [responseKey] at h
  exact ⟨h.1.1, h.1.2, h.2⟩

/-- A full-submission upsert on an existing schedule succeeds, leaves the
schedules untouched and stores exactly the submitted response for the
user. -/
theorem upsertFull_ok (st : Store) (scheduleId guildId userId username : String)
    (statuses : List (String × Status)) (s : Schedule)
    (hs : findSchedule st scheduleId guildId = some s) :
    ∃ st', upsertFull st scheduleId guildId userId username statuses = .ok st' ∧
      st'.schedules = st.schedules ∧
      findResponse st' scheduleId guildId userId =
        some ⟨scheduleId, guildId, userId, username, statuses⟩ := by
  have hstep : upsertFull st scheduleId guildId userId username statuses =
      if st.responses.any (responseKey scheduleId guildId userId) then
        .ok { st with responses := st.responses.map (fun r =>
                if responseKey scheduleId guildId userId r then
                  { r with username := username, dateStatuses := statuses }
                else r) }
      else
        .ok { st with responses :=
                st.responses ++ [⟨scheduleId, guildId, userId, username, statuses⟩] } := by
    unfold upsertFull
    rw [hs]
  by_cases hex : st.responses.any (responseKey scheduleId guildId userId) = true
  · rw [hstep, if_pos hex]
    refine ⟨_, rfl, rfl, ?_⟩
    show (st.responses.map _).find? _ = _
    have hkeep : ∀ r, responseKey scheduleId guildId userId
        ((fun r => if responseKey scheduleId guildId userId r then
          { r with username := username, dateStatuses := statuses } else r) r) =
        responseKey scheduleId guildId userId r := by
      intro r
      by_cases hr : responseKey scheduleId guildId userId r = true
      · simp only [hr, if_true]
        simp only [responseKey] at hr ⊢
        exact hr
      · simp [hr]
    rw [find?_map_key _ _ hkeep]
    obtain ⟨r0, hr0mem, hr0key⟩ := List.any_eq_true.mp hex
    have hsome : (st.responses.find? (responseKey scheduleId guildId userId)).isSome :=
      List.find?_isSome.mpr ⟨r0, hr0mem, hr0key⟩
    obtain ⟨r1, hr1⟩ := Option.isSome_iff_exists.mp hsome
    rw [hr1]
    have hk1 := List.find?_some hr1
    obtain ⟨e1, e2, e3⟩ := responseKey_fields _ _ _ _ hk1
    cases r1 with
    | mk a b c d e =>
      simp only [Option.map, hk1, if_true]
      simp only at e1 e2 e3
      rw [e1, e2, e3]
  · rw [hstep, if_neg hex]
    refine ⟨_, rfl, rfl, ?_⟩
    show (st.responses ++ _).find? _ = _
    have hex' : st.responses.any (responseKey scheduleId guildId userId) = false :=
      Bool.eq_false_iff.mpr hex
    have hnone : st.responses.find? (responseKey scheduleId guildId userId) = none := by
      rw [List.find?_eq_none]
      exact List.any_eq_false.mp hex'
    rw [List.find?_append, hnone]
    simp [List.find?, responseKey]

/-- A single-date upsert on an existing schedule for a user with a stored
response succeeds and stores that response with only the targeted date's
status rewritten. -/
theorem upsertSingle_ok (st : Store) (scheduleId guildId userId username dateId : String)
    (sv : Status) (s : Schedule) (hs : findSchedule st scheduleId guildId = some s)
    (r0 : UserResponse) (hr0 : findResponse st scheduleId guildId userId = some r0) :
    ∃ st', upsertSingle st scheduleId guildId userId username dateId sv = .ok st' ∧
      st'.schedules = st.schedules ∧
      findResponse st' scheduleId guildId userId =
        some { r0 with username := username,
                       dateStatuses := setStatus r0.dateStatuses dateId sv } := by
  have hstep : upsertSingle st scheduleId guildId userId username dateId sv =
      .ok { st with responses := st.responses.map (fun r =>
              if responseKey scheduleId guildId userId r then
                { r with username := username,
                         dateStatuses := setStatus r.dateStatuses dateId sv }
              else r) } := by
    unfold upsertSingle
    rw [hs, hr0]
  rw [hstep]
  refine ⟨_, rfl, rfl, ?_⟩
  show (st.responses.map _).find? _ = _
  have hkeep : ∀ r, responseKey scheduleId guildId userId
      ((fun r => if responseKey scheduleId guildId userId r then
        { r with username := username,
                 dateStatuses := setStatus r.dateStatuses dateId sv } else r) r) =
      responseKey scheduleId guildId userId r := by
    intro r
    by_cases hr : responseKey scheduleId guildId userId r = true
    · simp only [hr, if_true]
      simp only [responseKey] at hr ⊢
      exact hr
    · simp [hr]
  rw [find?_map_key _ _ hkeep]
  have hfind : st.responses.find? (responseKey scheduleId guildId userId) = some r0 := hr0
  rw [hfind]
  have hk0 : responseKey scheduleId guildId userId r0 = true := List.find?_some hfind
  simp only [Option.map, hk0, if_true]

theorem setStatus_find_self (l : List (String × Status)) (dateId : String) (sv : Status) :
    ((setStatus l dateId sv).find? (fun p => p.1 == dateId)).map (fun p => p.2) = some sv := by
  unfold setStatus
  by_cases hany : l.any (fun p => p.1 == dateId) = true
  · rw [if_pos hany]
    have hkeep : ∀ q : String × Status,
        (((fun p => if p.1 == dateId then (p.1, sv) else p) q).1 == dateId) =
          (q.1 == dateId) := by
      intro q
      by_cases hq : (q.1 == dateId) = true
      · simp [hq]
      · simp [hq]
    rw [find?_map_key _ _ hkeep]
    obtain ⟨p0, hp0mem, hp0⟩ := List.any_eq_true.mp hany
    have hsome : (l.find? (fun p => p.1 == dateId)).isSome :=
      List.find?_isSome.mpr ⟨p0, hp0mem, hp0⟩
    obtain ⟨p1, hp1⟩ := Option.isSome_iff_exists.mp hsome
    rw [hp1]
    have hk := List.find?_some hp1
    simp only at hk
    simp [Option.map, hk]
  · rw [if_neg hany]
    have hany' : l.any (fun p => p.1 == dateId) = false := Bool.eq_false_iff.mpr hany
    have hnone : l.find? (fun p => p.1 == dateId) = none := by
      rw [List.find?_eq_none]
      exact List.any_eq_false.mp hany'
    rw [List.find?_append, hnone]
    simp [List.find?]

theorem setStatus_find_other (l : List (String × Status)) (dateId d : String) (sv : Status)
    (hne : d ≠ dateId) :
    ((setStatus l dateId sv).find? (fun p => p.1 == d)).map (fun p => p.2) =
      (l.find? (fun p => p.1 == d)).map (fun p => p.2) := by
  unfold setStatus
  by_cases hany : l.any (fun p => p.1 == dateId) = true
  · rw [if_pos hany]
    have hkeep : ∀ q : String × Status,
        (((fun p => if p.1 == dateId then (p.1, sv) else p) q).1 == d) = (q.1 == d) := by
      intro q
      by_cases hq : (q.1 == dateId) = true
      · simp [hq]
      · simp [hq]
    rw [find?_map_key _ _ hkeep]
    cases hf : l.find? (fun p => p.1 == d) with
    | none => simp
    | some q =>
      have hk := List.find?_some hf
      simp only at hk
      have hq1 : q.1 = d := by simpa using hk
      have hqd : (q.1 == dateId) = false := by
        rw [hq1]
        simp [hne]
      simp [Option.map, hqd]
  · rw [if_neg hany]
    rw [List.find?_append]
    have hb : ((dateId, sv).1 == d) = false := by
      simp [Ne.symm hne]
    cases hf : l.find? (fun p => p.1 == d) with
    | none => simp [List.find?, hb]
    | some q => simp [List.find?, hb]

/-! ## Claim C2 -/

/-- C2: for a user with a stored response, a subsequent full submission
replaces the stored `dateStatuses` wholesale, and a subsequent single-date
submission overwrites only the targeted date while every other date's stored
status is unchanged. -/
theorem c2_full_replaces_single_preserves (st : Store)
    (scheduleId guildId userId username username2 : String)
    (s : Schedule) (hs : findSchedule st scheduleId guildId = some s)
    (r0 : UserResponse) (hr0 : findResponse st scheduleId guildId userId = some r0)
    (statuses : List (String × Status)) (dateId : String) (sv : Status) :
    (∃ st', upsertFull st scheduleId guildId userId username statuses = .ok st' ∧
      ∃ r1, findResponse st' scheduleId guildId userId = some r1 ∧
        r1.dateStatuses = statuses) ∧
    (∃ st', upsertSingle st scheduleId guildId userId username2 dateId sv = .ok st' ∧
      ∃ r1, findResponse st' scheduleId guildId userId = some r1 ∧
        lookupStatus r1 dateId = some sv ∧
        ∀ d, d ≠ dateId → lookupStatus r1 d = lookupStatus r0 d) := by
  constructor
  · obtain ⟨st', hok, _, hfind⟩ := upsertFull_ok st scheduleId guildId userId username statuses s hs
    exact ⟨st', hok, ⟨scheduleId, guildId, userId, username, statuses⟩, hfind, rfl⟩
  · obtain ⟨st', hok, _, hfind⟩ :=
      upsertSingle_ok st scheduleId guildId userId username2 dateId sv s hs r0 hr0
    refine ⟨st', hok, _, hfind, ?_, ?_⟩
    · show ((setStatus r0.dateStatuses dateId sv).find? _).map _ = some sv
      exact setStatus_find_self r0.dateStatuses dateId sv
    · intro d hd
      show ((setStatus r0.dateStatuses dateId sv).find? _).map _ = lookupStatus r0 d
      exact setStatus_find_other r0.dateStatuses dateId d sv hd

/-- C2 witness: in Scenario A's store, `user1`'s full resubmission replaces
both statuses and a single-date resubmission of `date2` leaves `date1`'s
stored status alone. -/
theorem c2_full_replaces_single_preserves_witness :
    (∃ st', upsertFull scenarioStore ("s1") ("g1") ("user1") ("U1")
        [(("date1"), Status.ng)] = .ok st' ∧
      ∃ r1, findResponse st' ("s1") ("g1") ("user1") = some r1 ∧
        r1.dateStatuses = [(("date1"), Status.ng)]) ∧
    (∃ st', upsertSingle scenarioStore ("s1") ("g1") ("user1") ("U1") ("date2")
        Status.ng = .ok st' ∧
      ∃ r1, findResponse st' ("s1") ("g1") ("user1") = some r1 ∧
        lookupStatus r1 ("date2") = some Status.ng ∧
        ∀ d, d ≠ ("date2") → lookupStatus r1 d =
          lookupStatus ⟨"s1", "g1", "user1", "U1",
            [(("date1"), Status.ok), (("date2"), Status.maybe)]⟩ d) :=
  c2_full_replaces_single_preserves scenarioStore ("s1") ("g1") ("user1") ("U1") ("U1")
    wSchedule (by decide)
    ⟨"s1", "g1", "user1", "U1", [(("date1"), Status.ok), (("date2"), Status.maybe)]⟩
    (by decide) [(("date1"), Status.ng)] ("date2") Status.ng

/-! ## Claim C7 -/

/-- C7: an upsert (either shape) whose referenced schedule does not exist for
the guild fails with NotFound, surfaced directly to the caller; the error
result carries no store, so no response data is written. -/
theorem c7_upsert_missing_schedule_not_found (st : Store)
    (scheduleId guildId userId username dateId : String)
    (statuses : List (String × Status)) (sv : Status)
    (h : findSchedule st scheduleId guildId = none) :
    upsertFull st scheduleId guildId userId username statuses = .error .notFound ∧
    upsertSingle st scheduleId guildId userId username dateId sv = .error .notFound ∧
    (∀ st', upsertFull st scheduleId guildId userId username statuses ≠ .ok st') := by
  refine ⟨?_, ?_, ?_⟩
  · unfold upsertFull
    rw [h]
  · unfold upsertSingle
    rw [h]
  · intro st' hcontra
    rw [show upsertFull st scheduleId guildId userId username statuses = .error .notFound from
      by unfold upsertFull; rw [h]] at hcontra
    exact Except.noConfusion hcontra

/-- C7 witness: submitting for an id absent from the store fails with
NotFound. -/
theorem c7_upsert_missing_schedule_not_found_witness :
    upsertFull wStore ("missing") ("g1") ("u1") ("U") [(("date1"), Status.ok)] =
      .error .notFound ∧
    upsertSingle wStore ("missing") ("g1") ("u1") ("U") ("date1") Status.ok =
      .error .notFound ∧
    (∀ st', upsertFull wStore ("missing") ("g1") ("u1") ("U") [(("date1"), Status.ok)] ≠
      .ok st') :=
  c7_upsert_missing_schedule_not_found wStore ("missing") ("g1") ("u1") ("U") ("date1")
    [(("date1"), Status.ok)] Status.ok rfl
/-! ## Schedule-lookup lemmas -/

/-- `updateReminders` rewrites exactly the matching schedule row: afterwards
the lookup returns the schedule with `remindersSent` replaced by the supplied
list. -/
theorem updateReminders_find (st : Store) (scheduleId guildId : String)
    (l : List String) (now : Nat) (s : Schedule)
    (hs : findSchedule st scheduleId guildId = some s) :
    findSchedule (updateReminders st scheduleId guildId l now) scheduleId guildId =
      some { s with remindersSent := l, updatedAt := now } := by
  have hs' : st.schedules.find? (fun t => t.id == scheduleId && t.guildId == guildId) =
      some s := hs
  unfold updateReminders findSchedule
  dsimp only
  have hkeep : ∀ t : Schedule,
      (((fun t : Schedule => if t.id == scheduleId && t.guildId == guildId then
          { t with remindersSent := l, updatedAt := now } else t) t).id == scheduleId &&
        ((fun t : Schedule => if t.id == scheduleId && t.guildId == guildId then
          { t with remindersSent := l, updatedAt := now } else t) t).guildId == guildId) =
      (t.id == scheduleId && t.guildId == guildId) := by
    intro t
    by_cases ht : (t.id == scheduleId && t.guildId == guildId) = true
    · simp only [ht, if_true]
    · simp [ht]
  rw [find?_map_key _ _ hkeep, hs']
  have hk := List.find?_some hs'
  simp only at hk
  simp [Option.map, hk]

/-! ## Claim C10 -/

/-- C10: when a schedule is closed, `handleVoteModal` rejects the submission
with an error for every user except the schedule's creator, whose submission
is still accepted and stored. -/
theorem c10_closed_vote_creator_exception (st : Store)
    (scheduleId guildId userId username : String) (components : List String)
    (s : Schedule) (hs : findSchedule st scheduleId guildId = some s)
    (hclosed : s.status = .closed) :
    (userId ≠ s.createdById →
      handleVoteModal st scheduleId guildId userId username components = .closedRejected) ∧
    (∃ st', handleVoteModal st scheduleId guildId s.createdById username components =
        .accepted st' ∧
      findResponse st' scheduleId guildId s.createdById =
        some ⟨scheduleId, guildId, s.createdById, username,
          parseModalResponses s.dates components⟩) := by
  constructor
  · intro hne
    have hstep : handleVoteModal st scheduleId guildId userId username components =
        if s.status == ScheduleStatus.closed && s.createdById != userId then .closedRejected
        else
          match upsertFull st scheduleId guildId userId username
              (parseModalResponses s.dates components) with
          | .error _ => .saveFailed
          | .ok st2 => .accepted st2 := by
      unfold handleVoteModal
      rw [hs]
    have hguard : (s.status == ScheduleStatus.closed && s.createdById != userId) = true := by
      have hb : (s.createdById != userId) = true := bne_iff_ne.mpr (Ne.symm hne)
      rw [hclosed, hb]
      rfl
    rw [hstep, if_pos hguard]
  · have hstep : handleVoteModal st scheduleId guildId s.createdById username components =
        if s.status == ScheduleStatus.closed && s.createdById != s.createdById then
          .closedRejected
        else
          match upsertFull st scheduleId guildId s.createdById username
              (parseModalResponses s.dates components) with
          | .error _ => .saveFailed
          | .ok st2 => .accepted st2 := by
      unfold handleVoteModal
      rw [hs]
    have hguard : (s.status == ScheduleStatus.closed && s.createdById != s.createdById) =
        false := by
      simp
    obtain ⟨st', hok, _, hfind⟩ := upsertFull_ok st scheduleId guildId s.createdById username
      (parseModalResponses s.dates components) s hs
    refine ⟨st', ?_, hfind⟩
    rw [hstep, if_neg (by rw [hguard]; exact Bool.false_ne_true), hok]

/-- C10 witness: on the closed schedule, user `u9` is rejected while the
creator's submission is accepted and stored. -/
theorem c10_closed_vote_creator_exception_witness :
    (("u9") ≠ ({ wSchedule with status := ScheduleStatus.closed }).createdById →
      handleVoteModal wClosedStore ("s1") ("g1") ("u9") ("U9") [("o")] = .closedRejected) ∧
    (∃ st', handleVoteModal wClosedStore ("s1") ("g1")
        ({ wSchedule with status := ScheduleStatus.closed }).createdById ("U9") [("o")] =
        .accepted st' ∧
      findResponse st' ("s1") ("g1")
          ({ wSchedule with status := ScheduleStatus.closed }).createdById =
        some ⟨"s1", "g1", ({ wSchedule with status := ScheduleStatus.closed }).createdById,
          "U9",
          parseModalResponses ({ wSchedule with status := ScheduleStatus.closed }).dates
            [("o")]⟩) :=
  c10_closed_vote_creator_exception wClosedStore ("s1") ("g1") ("u9") ("U9") [("o")]
    { wSchedule with status := ScheduleStatus.closed } rfl rfl

/-! ## Claim C4 (corrected) -/

/-- C4 counterexample: the claim says a vote on a closed schedule is a
structured no-op with no store write — but the creator's vote on the closed
schedule is accepted and a response row is written. -/
theorem c4_closed_vote_counterexample :
    (findSchedule wClosedStore ("s1") ("g1")).map (fun s => s.status) =
      some ScheduleStatus.closed ∧
    wClosedStore.responses.length = 0 ∧
    (voteResultStore (handleVoteModal wClosedStore ("s1") ("g1") ("creator1") ("Creator")
        [("o")])).map (fun st => st.responses.length) = some 1 := by
  decide

/-- C4 (amended): a schedule's status transitions only from open to closed
and is never reversed; closing an already-closed schedule is a structured
error with no store write, and a vote on a closed schedule is rejected for
every user other than the creator. Response upserts never touch the
schedules, and `updateReminders` leaves the schedule closed. -/
theorem c4_amended_close_is_one_way (st : Store) (scheduleId guildId userId username : String)
    (components : List String) (now : Nat) (s : Schedule)
    (hs : findSchedule st scheduleId guildId = some s) (hclosed : s.status = .closed) :
    (∀ st', closeScheduleExecute st scheduleId guildId userId now ≠ .ok st') ∧
    (userId = s.createdById →
      closeScheduleExecute st scheduleId guildId userId now = .error .alreadyClosed) ∧
    (∀ st', handleCloseButton st scheduleId guildId userId now ≠ .closedOk st') ∧
    (userId ≠ s.createdById →
      handleVoteModal st scheduleId guildId userId username components = .closedRejected) ∧
    (∀ statuses st', upsertFull st scheduleId guildId userId username statuses = .ok st' →
      st'.schedules = st.schedules) ∧
    (∀ l now2, (findSchedule (updateReminders st scheduleId guildId l now2)
        scheduleId guildId).map (fun t => t.status) = some ScheduleStatus.closed) := by
  have hstep : closeScheduleExecute st scheduleId guildId userId now =
      if s.createdById != userId then .error .permissionDenied
      else if s.status == ScheduleStatus.closed then .error .alreadyClosed
      else .ok { st with schedules := st.schedules.map (fun t =>
              if t.id == scheduleId && t.guildId == guildId then
                { t with status := .closed, updatedAt := now }
              else t) } := by
    unfold closeScheduleExecute
    rw [hs]
  have hclosedb : (s.status == ScheduleStatus.closed) = true := by
    rw [hclosed]
    decide
  have herr : closeScheduleExecute st scheduleId guildId userId now = .error .permissionDenied ∨
      closeScheduleExecute st scheduleId guildId userId now = .error .alreadyClosed := by
    by_cases hcu : (s.createdById != userId) = true
    · left
      rw [hstep, if_pos hcu]
    · right
      rw [hstep, if_neg hcu, if_pos hclosedb]
  refine ⟨?_, ?_, ?_, ?_, ?_, ?_⟩
  · intro st' hcontra
    rcases herr with h | h <;> rw [h] at hcontra <;> exact Except.noConfusion hcontra
  · intro hu
    have hcu : (s.createdById != userId) = false := by
      rw [hu]
      simp
    rw [hstep, if_neg (by rw [hcu]; exact Bool.false_ne_true), if_pos hclosedb]
  · intro st' hcontra
    have hbstep : handleCloseButton st scheduleId guildId userId now =
        if s.createdById != userId then .permissionDenied
        else if s.status == ScheduleStatus.closed then .alreadyClosedError
        else
          match closeScheduleExecute st scheduleId guildId userId now with
          | .error _ => .closeFailed
          | .ok st2 => .closedOk st2 := by
      unfold handleCloseButton
      rw [hs]
    by_cases hcu : (s.createdById != userId) = true
    · rw [hbstep, if_pos hcu] at hcontra
      exact CloseButtonResult.noConfusion hcontra
    · rw [hbstep, if_neg hcu, if_pos hclosedb] at hcontra
      exact CloseButtonResult.noConfusion hcontra
  · intro hne
    have hvstep : handleVoteModal st scheduleId guildId userId username components =
        if s.status == ScheduleStatus.closed && s.createdById != userId then .closedRejected
        else
          match upsertFull st scheduleId guildId userId username
              (parseModalResponses s.dates components) with
          | .error _ => .saveFailed
          | .ok st2 => .accepted st2 := by
      unfold handleVoteModal
      rw [hs]
    have hguard : (s.status == ScheduleStatus.closed && s.createdById != userId) = true := by
      have hb : (s.createdById != userId) = true := bne_iff_ne.mpr (Ne.symm hne)
      rw [hclosed, hb]
      rfl
    rw [hvstep, if_pos hguard]
  · intro statuses st' hok
    have hfstep : upsertFull st scheduleId guildId userId username statuses =
        if st.responses.any (responseKey scheduleId guildId userId) then
          .ok { st with responses := st.responses.map (fun r =>
                  if responseKey scheduleId guildId userId r then
                    { r with username := username, dateStatuses := statuses }
                  else r) }
        else
          .ok { st with responses :=
                  st.responses ++ [⟨scheduleId, guildId, userId, username, statuses⟩] } := by
      unfold upsertFull
      rw [hs]
    by_cases hex : st.responses.any (responseKey scheduleId guildId userId) = true
    · rw [hfstep, if_pos hex] at hok
      cases hok
      rfl
    · rw [hfstep, if_neg hex] at hok
      cases hok
      rfl
  · intro l now2
    rw [updateReminders_find st scheduleId guildId l now2 s hs]
    simp [hclosed]

/-- C4 witness: the closed fixture store exercises every branch of the
amended statement for a non-creator user. -/
theorem c4_amended_close_is_one_way_witness :
    (∀ st', closeScheduleExecute wClosedStore ("s1") ("g1") ("u9") 7 ≠ .ok st') ∧
    (("u9") = ({ wSchedule with status := ScheduleStatus.closed }).createdById →
      closeScheduleExecute wClosedStore ("s1") ("g1") ("u9") 7 = .error .alreadyClosed) ∧
    (∀ st', handleCloseButton wClosedStore ("s1") ("g1") ("u9") 7 ≠ .closedOk st') ∧
    (("u9") ≠ ({ wSchedule with status := ScheduleStatus.closed }).createdById →
      handleVoteModal wClosedStore ("s1") ("g1") ("u9") ("U9") [("o")] = .closedRejected) ∧
    (∀ statuses st', upsertFull wClosedStore ("s1") ("g1") ("u9") ("U9") statuses = .ok st' →
      st'.schedules = wClosedStore.schedules) ∧
    (∀ l now2, (findSchedule (updateReminders wClosedStore ("s1") ("g1") l now2)
        ("s1") ("g1")).map (fun t => t.status) = some ScheduleStatus.closed) :=
  c4_amended_close_is_one_way wClosedStore ("s1") ("g1") ("u9") ("U9") [("o")] 7
    { wSchedule with status := ScheduleStatus.closed } rfl rfl

/-! ## Claim C5 (corrected) -/

/-- C5 counterexample: `updateReminders` is a core operation that does not
leave `remindersSent` a superset of its previous value — called with an empty
list it erases the recorded timing `1440`. -/
theorem c5_reminders_shrink_counterexample :
    (findSchedule wReminderStore ("s1") ("g1")).map
      (fun s => s.remindersSent.contains ("1440")) = some true ∧
    (findSchedule (updateReminders wReminderStore ("s1") ("g1") [] 99) ("s1") ("g1")).map
      (fun s => s.remindersSent.contains ("1440")) = some false := by
  decide

/-- C5 (amended): `D1ScheduleRepository.updateReminders` replaces
`reminders_sent` wholesale with the supplied list, so `remindersSent` grows
only under the caller's discipline: when the dispatcher appends the timing to
the previous value, every previously recorded timing is preserved. -/
theorem c5_amended_update_reminders_wholesale (st : Store) (scheduleId guildId : String)
    (now : Nat) (t : String) (s : Schedule)
    (hs : findSchedule st scheduleId guildId = some s) :
    (∀ l now2, (findSchedule (updateReminders st scheduleId guildId l now2)
        scheduleId guildId).map (fun u => u.remindersSent) = some l) ∧
    (findSchedule (updateReminders st scheduleId guildId (s.remindersSent ++ [t]) now)
        scheduleId guildId).map (fun u => u.remindersSent) =
      some (s.remindersSent ++ [t]) ∧
    (∀ x ∈ s.remindersSent, x ∈ s.remindersSent ++ [t]) := by
  refine ⟨?_, ?_, ?_⟩
  · intro l now2
    rw [updateReminders_find st scheduleId guildId l now2 s hs]
    rfl
  · rw [updateReminders_find st scheduleId guildId (s.remindersSent ++ [t]) now s hs]
    rfl
  · intro x hx
    exact List.mem_append_left _ hx

/-- C5 witness: appending the timing `60` to the stored `1440` preserves the
recorded timing. -/
theorem c5_amended_update_reminders_wholesale_witness :
    (∀ l now2, (findSchedule (updateReminders wReminderStore ("s1") ("g1") l now2)
        ("s1") ("g1")).map (fun u => u.remindersSent) = some l) ∧
    (findSchedule (updateReminders wReminderStore ("s1") ("g1")
        (({ wSchedule with remindersSent := ["1440"] }).remindersSent ++ [("60")]) 5)
        ("s1") ("g1")).map (fun u => u.remindersSent) =
      some (({ wSchedule with remindersSent := ["1440"] }).remindersSent ++ [("60")]) ∧
    (∀ x ∈ ({ wSchedule with remindersSent := ["1440"] }).remindersSent,
      x ∈ ({ wSchedule with remindersSent := ["1440"] }).remindersSent ++ [("60")]) :=
  c5_amended_update_reminders_wholesale wReminderStore ("s1") ("g1") 5 ("60")
    { wSchedule with remindersSent := ["1440"] } rfl

/-! ## Claim C8 (corrected) -/

/-- C8 counterexample: a submission whose per-date values are malformed text
is not rejected with a ValidationError — it is accepted and each malformed
value is recorded as an `ng` vote. -/
theorem c8_malformed_vote_recorded_counterexample :
    ((voteResultStore (handleVoteModal wStore ("s1") ("g1") ("u1") ("U1")
        [("garbage"), ("!!")])).bind
      (fun st => findResponse st ("s1") ("g1") ("u1"))).map (fun r => r.dateStatuses) =
      some [(("date1"), Status.ng), (("date2"), Status.ng)] := by
  decide

/-- C8 (amended): `handleVoteModal` never raises a validation error for a
malformed value — every value other than the recognized yes/maybe marks is
recorded as `ng`; date ids are bound positionally to the schedule's own
dates, so an unknown date id can never be referenced, and on an open
schedule the parsed submission is accepted and stored. -/
theorem c8_amended_malformed_coerced_to_ng :
    (∀ value, normalizeVoteValue value ≠ "o" → normalizeVoteValue value ≠ "○" →
      normalizeVoteValue value ≠ "◯" → normalizeVoteValue value ≠ "△" →
      normalizeVoteValue value ≠ "▲" → parseVoteValue value = .ng) ∧
    (∀ dates components p, p ∈ parseModalResponses dates components →
      p.1 ∈ dates.map ScheduleDate.id) ∧
    (∀ st scheduleId guildId userId username components s,
      findSchedule st scheduleId guildId = some s → s.status = .opened →
      ∃ st', handleVoteModal st scheduleId guildId userId username components =
          .accepted st' ∧
        findResponse st' scheduleId guildId userId =
          some ⟨scheduleId, guildId, userId, username,
            parseModalResponses s.dates components⟩) := by
  refine ⟨?_, ?_, ?_⟩
  · intro value h1 h2 h3 h4 h5
    have e1 : (normalizeVoteValue value == "o") = false := beq_eq_false_iff_ne.mpr h1
    have e2 : (normalizeVoteValue value == "○") = false := beq_eq_false_iff_ne.mpr h2
    have e3 : (normalizeVoteValue value == "◯") = false := beq_eq_false_iff_ne.mpr h3
    have e4 : (normalizeVoteValue value == "△") = false := beq_eq_false_iff_ne.mpr h4
    have e5 : (normalizeVoteValue value == "▲") = false := beq_eq_false_iff_ne.mpr h5
    simp [parseVoteValue, e1, e2, e3, e4, e5]
  · intro dates
    induction dates with
    | nil =>
      intro components p hp
      cases components <;> simp [parseModalResponses] at hp
    | cons d ds ih =>
      intro components p hp
      cases components with
      | nil => simp [parseModalResponses] at hp
      | cons v vs =>
        simp only [parseModalResponses, List.mem_cons] at hp
        rcases hp with hp | hp
        · rw [hp]
          simp
        · have := ih vs p hp
          simp only [List.map_cons, List.mem_cons]
          right
          exact this
  · intro st scheduleId guildId userId username components s hs hopen
    have hstep : handleVoteModal st scheduleId guildId userId username components =
        if s.status == ScheduleStatus.closed && s.createdById != userId then .closedRejected
        else
          match upsertFull st scheduleId guildId userId username
              (parseModalResponses s.dates components) with
          | .error _ => .saveFailed
          | .ok st2 => .accepted st2 := by
      unfold handleVoteModal
      rw [hs]
    have hguard : (s.status == ScheduleStatus.closed && s.createdById != userId) = false := by
      rw [hopen]
      rfl
    obtain ⟨st', hok, _, hfind⟩ := upsertFull_ok st scheduleId guildId userId username
      (parseModalResponses s.dates components) s hs
    refine ⟨st', ?_, hfind⟩
    rw [hstep, if_neg (by rw [hguard]; exact Bool.false_ne_true), hok]

/-- C8 witness: the malformed value `garbage` parses to `ng`; the parsed
pairs only mention the schedule's own date ids; and the open fixture store
accepts and records the parsed submission. -/
theorem c8_amended_malformed_coerced_to_ng_witness :
    parseVoteValue ("garbage") = .ng ∧
    (("date1"), Status.ng).1 ∈ wDates.map ScheduleDate.id ∧
    (∃ st', handleVoteModal wStore ("s1") ("g1") ("u1") ("U1") [("garbage")] =
        .accepted st' ∧
      findResponse st' ("s1") ("g1") ("u1") =
        some ⟨"s1", "g1", "u1", "U1", parseModalResponses wSchedule.dates [("garbage")]⟩) :=
  ⟨c8_amended_malformed_coerced_to_ng.1 ("garbage") (by decide) (by decide) (by decide)
      (by decide) (by decide),
   c8_amended_malformed_coerced_to_ng.2.1 wDates [("garbage")] (("date1"), Status.ng)
      (by decide),
   c8_amended_malformed_coerced_to_ng.2.2 wStore ("s1") ("g1") ("u1") ("U1") [("garbage")]
      wSchedule rfl rfl⟩
/-! ## Counting lemmas and the submission fold -/

/-- When every stored response carries a status for a date, the three
per-date counters add up to the number of stored responses. -/
theorem countStatus_sum (rs : List UserResponse) (dateId : String)
    (h : ∀ r ∈ rs, (lookupStatus r dateId).isSome = true) :
    countStatus rs dateId .ok + countStatus rs dateId .maybe + countStatus rs dateId .ng =
      rs.length := by
  induction rs with
  | nil => rfl
  | cons r rs ih =>
    have hr := h r (List.mem_cons_self r rs)
    have ih' := ih (fun x hx => h x (List.mem_cons_of_mem r hx))
    simp only [countStatus, List.countP_cons, List.length_cons]
    simp only [countStatus] at ih'
    rcases hopt : lookupStatus r dateId with _ | sv
    · rw [hopt] at hr
      simp at hr
    · cases sv <;> simp [hopt] <;> omega

/-- When every stored response is nonempty, `totalResponseUsers` is the
number of stored responses. -/
theorem totalResponseUsers_eq_length (rs : List UserResponse)
    (h : ∀ r ∈ rs, r.dateStatuses ≠ []) :
    totalResponseUsers rs = rs.length := by
  rw [totalResponseUsers, List.countP_eq_length]
  intro r hr
  have := h r hr
  cases hds : r.dateStatuses with
  | nil => exact absurd hds this
  | cons a l => simp [hds]

/-- Submitting a list of fresh, pairwise-distinct users' full responses
appends exactly one stored response per vote and leaves the schedules
untouched. -/
theorem submitVotes_spec (scheduleId guildId : String) (votes : List Vote) :
    ∀ (st : Store) (s : Schedule), findSchedule st scheduleId guildId = some s →
      (∀ v ∈ votes, findResponse st scheduleId guildId v.userId = none) →
      votes.Pairwise (fun a b => a.userId ≠ b.userId) →
      (submitVotes st scheduleId guildId votes).responses =
        st.responses ++ votes.map (fun v =>
          ⟨scheduleId, guildId, v.userId, v.username, v.statuses⟩) ∧
      (submitVotes st scheduleId guildId votes).schedules = st.schedules := by
  induction votes with
  | nil =>
    intro st s _ _ _
    exact ⟨(List.append_nil _).symm, rfl⟩
  | cons v vs ih =>
    intro st s hs hfresh hdist
    have hnone : findResponse st scheduleId guildId v.userId = none :=
      hfresh v (List.mem_cons_self v vs)
    have hanyf : st.responses.any (responseKey scheduleId guildId v.userId) = false := by
      rw [List.any_eq_false]
      exact List.find?_eq_none.mp hnone
    have hstep : upsertFull st scheduleId guildId v.userId v.username v.statuses =
        .ok { st with responses :=
                st.responses ++ [⟨scheduleId, guildId, v.userId, v.username, v.statuses⟩] } := by
      unfold upsertFull
      rw [hs, if_neg (by rw [hanyf]; exact Bool.false_ne_true)]
    have hsubmit : submitVotes st scheduleId guildId (v :: vs) =
        submitVotes { st with responses :=
            st.responses ++ [⟨scheduleId, guildId, v.userId, v.username, v.statuses⟩] }
          scheduleId guildId vs := by
      simp only [submitVotes]
      rw [hstep]
    have hs2 : findSchedule { st with responses :=
        st.responses ++ [⟨scheduleId, guildId, v.userId, v.username, v.statuses⟩] }
        scheduleId guildId = some s := hs
    have hfresh2 : ∀ w ∈ vs, findResponse { st with responses :=
        st.responses ++ [⟨scheduleId, guildId, v.userId, v.username, v.statuses⟩] }
        scheduleId guildId w.userId = none := by
      intro w hw
      have hwf : st.responses.find? (responseKey scheduleId guildId w.userId) = none :=
        hfresh w (List.mem_cons_of_mem v hw)
      have hne : v.userId ≠ w.userId := (List.pairwise_cons.mp hdist).1 w hw
      show (st.responses ++ _).find? (responseKey scheduleId guildId w.userId) = none
      rw [List.find?_append, hwf]
      have hb : (v.userId == w.userId) = false := beq_eq_false_iff_ne.mpr hne
      simp [List.find?, responseKey, hb]
    obtain ⟨hresp, hsched⟩ := ih _ s hs2 hfresh2 (List.pairwise_cons.mp hdist).2
    rw [hsubmit]
    refine ⟨?_, hsched⟩
    rw [hresp]
    simp [List.append_assoc]

/-! ## Claim C3 -/

/-- C3: when n distinct fresh users each submit a response covering every
date of the schedule, the derived summary reports `totalResponseUsers = n`
and, for each date, `yes + maybe + no = n`; Scenario A's four votes over two
dates yield counts (2, 1, 1) for both dates and four responding users. -/
theorem c3_vote_totals_settle (st : Store) (scheduleId guildId : String)
    (votes : List Vote) (s : Schedule)
    (hs : findSchedule st scheduleId guildId = some s)
    (hnoresp : responsesFor st scheduleId guildId = [])
    (hfresh : ∀ v ∈ votes, findResponse st scheduleId guildId v.userId = none)
    (hdist : votes.Pairwise (fun a b => a.userId ≠ b.userId))
    (hcover : ∀ v ∈ votes, ∀ d ∈ s.dates,
      ((v.statuses.find? (fun p => p.1 == d.id)).map (fun p => p.2)).isSome = true)
    (hdates : s.dates ≠ []) :
    (∃ sum, getScheduleSummary (submitVotes st scheduleId guildId votes)
        scheduleId guildId = some sum ∧
      sum.totalResponseUsers = votes.length ∧
      ∀ d ∈ s.dates, (sum.responseCounts d.id).yes + (sum.responseCounts d.id).maybe +
        (sum.responseCounts d.id).no = votes.length) ∧
    ((getScheduleSummary scenarioStore ("s1") ("g1")).map
        (fun m => m.totalResponseUsers) = some 4 ∧
      (getScheduleSummary scenarioStore ("s1") ("g1")).map
        (fun m => m.responseCounts ("date1")) = some ⟨2, 1, 1⟩ ∧
      (getScheduleSummary scenarioStore ("s1") ("g1")).map
        (fun m => m.responseCounts ("date2")) = some ⟨2, 1, 1⟩) := by
  constructor
  · obtain ⟨hresp, hsched⟩ := submitVotes_spec scheduleId guildId votes st s hs hfresh hdist
    have hfind : findSchedule (submitVotes st scheduleId guildId votes) scheduleId guildId =
        some s := by
      show (submitVotes st scheduleId guildId votes).schedules.find? _ = some s
      rw [hsched]
      exact hs
    have hrs : responsesFor (submitVotes st scheduleId guildId votes) scheduleId guildId =
        votes.map (fun v => ⟨scheduleId, guildId, v.userId, v.username, v.statuses⟩) := by
      show (submitVotes st scheduleId guildId votes).responses.filter _ = _
      rw [hresp, List.filter_append]
      have h1 : st.responses.filter
          (fun r => r.scheduleId == scheduleId && r.guildId == guildId) = [] := hnoresp
      rw [h1]
      rw [List.filter_eq_self.mpr]
      · rfl
      · intro r hr
        obtain ⟨v, _, hv⟩ := List.mem_map.mp hr
        rw [← hv]
        simp
    have hd0 : ∃ d0 ds, s.dates = d0 :: ds := by
      cases hsd : s.dates with
      | nil => exact absurd hsd hdates
      | cons d0 ds => exact ⟨d0, ds, rfl⟩
    obtain ⟨d0, ds, hsd⟩ := hd0
    refine ⟨⟨s, dateCounts (responsesFor (submitVotes st scheduleId guildId votes)
        scheduleId guildId),
      totalResponseUsers (responsesFor (submitVotes st scheduleId guildId votes)
        scheduleId guildId),
      optimalDateId (responsesFor (submitVotes st scheduleId guildId votes)
        scheduleId guildId) s.dates⟩, ?_, ?_, ?_⟩
    · simp only [getScheduleSummary, hfind]
    · show totalResponseUsers _ = votes.length
      rw [hrs]
      rw [totalResponseUsers_eq_length]
      · exact List.length_map _ _
      · intro r hr
        obtain ⟨v, hvmem, hv⟩ := List.mem_map.mp hr
        have hc := hcover v hvmem d0 (by rw [hsd]; exact List.mem_cons_self d0 ds)
        rw [← hv]
        intro hcontra
        dsimp only at hcontra
        rw [hcontra] at hc
        simp [List.find?] at hc
    · intro d hd
      show countStatus _ d.id .ok + countStatus _ d.id .maybe + countStatus _ d.id .ng = _
      rw [hrs, countStatus_sum]
      · exact List.length_map _ _
      · intro r hr
        obtain ⟨v, hvmem, hv⟩ := List.mem_map.mp hr
        rw [← hv]
        exact hcover v hvmem d hd
  · refine ⟨?_, ?_, ?_⟩ <;> decide

/-- C3 witness: Scenario A's four votes on the fresh two-date schedule
satisfy every hypothesis, giving `totalResponseUsers = 4` and per-date sums
of 4. -/
theorem c3_vote_totals_settle_witness :
    (∃ sum, getScheduleSummary (submitVotes wStore ("s1") ("g1") scenarioVotes)
        ("s1") ("g1") = some sum ∧
      sum.totalResponseUsers = scenarioVotes.length ∧
      ∀ d ∈ wSchedule.dates, (sum.responseCounts d.id).yes +
        (sum.responseCounts d.id).maybe + (sum.responseCounts d.id).no =
          scenarioVotes.length) ∧
    ((getScheduleSummary scenarioStore ("s1") ("g1")).map
        (fun m => m.totalResponseUsers) = some 4 ∧
      (getScheduleSummary scenarioStore ("s1") ("g1")).map
        (fun m => m.responseCounts ("date1")) = some ⟨2, 1, 1⟩ ∧
      (getScheduleSummary scenarioStore ("s1") ("g1")).map
        (fun m => m.responseCounts ("date2")) = some ⟨2, 1, 1⟩) :=
  c3_vote_totals_settle wStore ("s1") ("g1") scenarioVotes wSchedule rfl rfl
    (by decide) (by decide) (by decide) (by decide)
/-! ## Batch-write lemmas -/

theorem dateRowsOf_scheduleId (scheduleId : String) (ds : List ScheduleDate) :
    ∀ i r, r ∈ dateRowsOf scheduleId i ds → r.scheduleId = scheduleId := by
  induction ds with
  | nil =>
    intro i r hr
    simp [dateRowsOf] at hr
  | cons d ds ih =>
    intro i r hr
    simp only [dateRowsOf, List.mem_cons] at hr
    rcases hr with hr | hr
    · rw [hr]
    · exact ih (i + 1) r hr

theorem statusRowsOf_key (scheduleId userId : String) (l : List (String × Status)) :
    ∀ r ∈ statusRowsOf scheduleId userId l,
      r.scheduleId = scheduleId ∧ r.userId = userId := by
  induction l with
  | nil =>
    intro r hr
    simp [statusRowsOf] at hr
  | cons p ps ih =>
    intro r hr
    simp only [statusRowsOf, List.mem_cons] at hr
    rcases hr with hr | hr
    · rw [hr]
      exact ⟨rfl, rfl⟩
    · exact ih r hr

theorem foldl_dateInsertStmts (scheduleId : String) (ds : List ScheduleDate) :
    ∀ (db : DBState) (i : Nat),
      (dateInsertStmts scheduleId i ds).foldl applyStmt db =
        { db with scheduleDates := db.scheduleDates ++ dateRowsOf scheduleId i ds } := by
  induction ds with
  | nil =>
    intro db i
    simp [dateInsertStmts, dateRowsOf]
  | cons d ds ih =>
    intro db i
    simp only [dateInsertStmts, List.foldl_cons]
    rw [ih]
    simp [applyStmt, dateRowsOf]

theorem foldl_statusInsertStmts (scheduleId userId : String) (l : List (String × Status)) :
    ∀ db : DBState,
      (statusInsertStmts scheduleId userId l).foldl applyStmt db =
        { db with responseStatuses :=
            db.responseStatuses ++ statusRowsOf scheduleId userId l } := by
  induction l with
  | nil =>
    intro db
    simp [statusInsertStmts, statusRowsOf]
  | cons p ps ih =>
    intro db
    simp only [statusInsertStmts, List.foldl_cons]
    rw [ih]
    simp [applyStmt, statusRowsOf]

theorem applyStmt_upsertScheduleRow_schedules (db : DBState) (row : ScheduleRow) :
    (applyStmt db (.upsertScheduleRow row)).schedules =
      if db.schedules.any (fun s => s.id == row.id) then
        db.schedules.map (fun s => if s.id == row.id then row else s)
      else db.schedules ++ [row] := by
  simp only [applyStmt]
  split <;> rfl

theorem applyStmt_upsertScheduleRow_dates (db : DBState) (row : ScheduleRow) :
    (applyStmt db (.upsertScheduleRow row)).scheduleDates = db.scheduleDates := by
  simp only [applyStmt]
  split <;> rfl

theorem applyStmt_upsertResponseRow_responses (db : DBState) (row : ResponseRow) :
    (applyStmt db (.upsertResponseRow row)).responses =
      if db.responses.any (fun r => r.scheduleId == row.scheduleId && r.userId == row.userId)
      then
        db.responses.map (fun r =>
          if r.scheduleId == row.scheduleId && r.userId == row.userId then row else r)
      else db.responses ++ [row] := by
  simp only [applyStmt]
  split <;> rfl

theorem applyStmt_upsertResponseRow_statuses (db : DBState) (row : ResponseRow) :
    (applyStmt db (.upsertResponseRow row)).responseStatuses = db.responseStatuses := by
  simp only [applyStmt]
  split <;> rfl

/-- The find-after-upsert pattern shared by both tables: whether the row
replaces an existing match or is appended, looking it up afterwards yields
the new row. -/
theorem upsert_find {α : Type} (key : α → Bool) (row : α) (hrow : key row = true)
    (l : List α) :
    (if l.any key then l.map (fun a => if key a then row else a) else l ++ [row]).find? key =
      some row := by
  by_cases hex : l.any key = true
  · rw [if_pos hex]
    have hkeep : ∀ a, key ((fun a => if key a then row else a) a) = key a := by
      intro a
      by_cases ha : key a = true
      · simp [ha, hrow]
      · simp [ha]
    rw [find?_map_key _ _ hkeep]
    obtain ⟨a0, ha0, hka⟩ := List.any_eq_true.mp hex
    obtain ⟨a1, ha1⟩ := Option.isSome_iff_exists.mp (List.find?_isSome.mpr ⟨a0, ha0, hka⟩)
    rw [ha1]
    have hk1 := List.find?_some ha1
    simp [Option.map, hk1]
  · rw [if_neg hex]
    have hnone : l.find? key = none := by
      rw [List.find?_eq_none]
      exact List.any_eq_false.mp (Bool.eq_false_iff.mpr hex)
    rw [List.find?_append, hnone]
    simp [List.find?, hrow]

/-! ## Claim C6 -/

/-- C6: the persisted write of a schedule with its date rows, and of a
response with its per-date status rows, is one atomic batch: on failure the
state is returned unchanged with the error flag, and on success the whole
row set of the logical operation is visible — the upserted schedule row with
exactly the new date rows, and the upserted response row with exactly the new
status rows. -/
theorem c6_saves_are_atomic (db : DBState) (s : Schedule) (row : ResponseRow)
    (statuses : List (String × Status)) :
    scheduleSave db s false = ⟨db, false⟩ ∧
    (scheduleSave db s true).ok = true ∧
    dateRowsFor (scheduleSave db s true).db s.id = dateRowsOf s.id 0 s.dates ∧
    (scheduleSave db s true).db.schedules.find? (fun r => r.id == s.id) =
      some (scheduleRowOf s) ∧
    responseSave db row statuses false = ⟨db, false⟩ ∧
    (responseSave db row statuses true).ok = true ∧
    statusRowsFor (responseSave db row statuses true).db row.scheduleId row.userId =
      statusRowsOf row.scheduleId row.userId statuses ∧
    (responseSave db row statuses true).db.responses.find?
      (fun r => r.scheduleId == row.scheduleId && r.userId == row.userId) = some row := by
  have hdbeq : (scheduleSave db s true).db =
      { applyStmt (applyStmt db (.deleteScheduleDates s.id))
          (.upsertScheduleRow (scheduleRowOf s)) with
        scheduleDates := (applyStmt (applyStmt db (.deleteScheduleDates s.id))
          (.upsertScheduleRow (scheduleRowOf s))).scheduleDates ++
            dateRowsOf s.id 0 s.dates } := by
    show (scheduleSaveStmts s).foldl applyStmt db = _
    simp only [scheduleSaveStmts, List.foldl_cons]
    rw [foldl_dateInsertStmts]
  have hdates : (scheduleSave db s true).db.scheduleDates =
      db.scheduleDates.filter (fun d => d.scheduleId != s.id) ++
        dateRowsOf s.id 0 s.dates := by
    rw [hdbeq]
    dsimp only
    rw [applyStmt_upsertScheduleRow_dates]
    rfl
  have hscheds : (scheduleSave db s true).db.schedules =
      (applyStmt (applyStmt db (.deleteScheduleDates s.id))
        (.upsertScheduleRow (scheduleRowOf s))).schedules := by
    rw [hdbeq]
  have hdbeq2 : (responseSave db row statuses true).db =
      { applyStmt (applyStmt db (.upsertResponseRow row))
          (.deleteResponseStatuses row.scheduleId row.userId) with
        responseStatuses := (applyStmt (applyStmt db (.upsertResponseRow row))
          (.deleteResponseStatuses row.scheduleId row.userId)).responseStatuses ++
            statusRowsOf row.scheduleId row.userId statuses } := by
    show (responseSaveStmts row statuses).foldl applyStmt db = _
    simp only [responseSaveStmts, List.foldl_cons]
    rw [foldl_statusInsertStmts]
  have hstat : (responseSave db row statuses true).db.responseStatuses =
      db.responseStatuses.filter (fun t =>
        !(t.scheduleId == row.scheduleId && t.userId == row.userId)) ++
        statusRowsOf row.scheduleId row.userId statuses := by
    rw [hdbeq2]
    dsimp only
    rw [show (applyStmt (applyStmt db (.upsertResponseRow row))
        (.deleteResponseStatuses row.scheduleId row.userId)).responseStatuses =
        (applyStmt db (.upsertResponseRow row)).responseStatuses.filter (fun t =>
          !(t.scheduleId == row.scheduleId && t.userId == row.userId)) from rfl]
    rw [applyStmt_upsertResponseRow_statuses]
  have hresps : (responseSave db row statuses true).db.responses =
      (applyStmt db (.upsertResponseRow row)).responses := by
    rw [hdbeq2]
    rfl
  refine ⟨rfl, rfl, ?_, ?_, rfl, rfl, ?_, ?_⟩
  · show (scheduleSave db s true).db.scheduleDates.filter _ = _
    rw [hdates, List.filter_append]
    have h1 : (db.scheduleDates.filter (fun d => d.scheduleId != s.id)).filter
        (fun d => d.scheduleId == s.id) = [] := by
      rw [List.filter_filter, List.filter_eq_nil_iff]
      intro a _
      cases hb : a.scheduleId == s.id <;> simp [bne, hb]
    have h2 : (dateRowsOf s.id 0 s.dates).filter (fun d => d.scheduleId == s.id) =
        dateRowsOf s.id 0 s.dates := by
      rw [List.filter_eq_self]
      intro a ha
      have := dateRowsOf_scheduleId s.id s.dates 0 a ha
      simp [this]
    rw [h1, h2]
    rfl
  · rw [hscheds, applyStmt_upsertScheduleRow_schedules]
    exact upsert_find (fun r => r.id == s.id) (scheduleRowOf s) (by simp [scheduleRowOf]) _
  · show (responseSave db row statuses true).db.responseStatuses.filter _ = _
    rw [hstat, List.filter_append]
    have h1 : (db.responseStatuses.filter (fun t =>
        !(t.scheduleId == row.scheduleId && t.userId == row.userId))).filter
        (fun t => t.scheduleId == row.scheduleId && t.userId == row.userId) = [] := by
      rw [List.filter_filter, List.filter_eq_nil_iff]
      intro a _
      cases hb : a.scheduleId == row.scheduleId && a.userId == row.userId <;> simp [hb]
    have h2 : (statusRowsOf row.scheduleId row.userId statuses).filter
        (fun t => t.scheduleId == row.scheduleId && t.userId == row.userId) =
        statusRowsOf row.scheduleId row.userId statuses := by
      rw [List.filter_eq_self]
      intro a ha
      obtain ⟨h1', h2'⟩ := statusRowsOf_key row.scheduleId row.userId statuses a ha
      simp [h1', h2']
    rw [h1, h2]
    rfl
  · rw [hresps, applyStmt_upsertResponseRow_responses]
    exact upsert_find (fun r => r.scheduleId == row.scheduleId && r.userId == row.userId)
      row (by simp) _

end Chouseichan
